import Mathlib

/-!
Verification model of the MFS directory overlay (`mfs/dir.go`).

The `Directory` overlay of the Mutable File System sits on top of an
immutable content-addressed DAG.  This file gives a shallow embedding of
`mfs/dir.go` into Lean: every method of `Directory` becomes a pure
function that threads the directory state, the DAG store and a
cancellation context explicitly.  External collaborators that are not
part of the source tree (the UnixFS directory implementation
`uio.Directory`, the DAG service, and the `File` overlay) are modelled
from the specification's contracts; each such definition carries a doc
comment saying so.

Content addressing is modelled by taking a node's identity (CID) to be
the node value itself: two nodes are the same block iff they are equal.
-/

namespace Mfs

/-- UnixFS node kinds (`ft.TRaw`, `ft.TFile`, ... in the source).
`tOther` stands for any data-type value outside the six known kinds,
which the source handles through its `default:` branch. -/
inductive UnixFSType where
  | tRaw
  | tDirectory
  | tFile
  | tMetadata
  | tSymlink
  | tHAMTShard
  | tOther
deriving DecidableEq, Repr

/-- Decoded UnixFS data segment of a protobuf node: the result of a
successful `ft.FSNodeFromBytes(nd.Data())`. -/
structure FSData where
  typ : UnixFSType
  mode : Nat
  modTime : Int
deriving DecidableEq, Repr

/-- IPLD nodes.  `proto` models a `dag.ProtoNode`: `pdata = none` models
a data segment that `ft.FSNodeFromBytes` fails to decode; `links` are
the named child links; `builder` is the CID builder recoverable from the
node's own CID.  `raw` models a `dag.RawNode` (a bare raw DAG leaf) and
`other` any further `ipld.Node` implementation. -/
inductive IpldNode where
  | proto (pdata : Option FSData) (links : List (String × IpldNode)) (builder : Nat)
  | raw (bytes : List Nat)
  | other

/-- Cancellation context carried by every overlay (`d.ctx` in the
source).  Any operation that touches the DAG store or the UnixFS layer
fails once the context is cancelled. -/
structure Ctx where
  cancelled : Bool
deriving DecidableEq, Repr

/-- Error kinds surfaced by the modelled operations, matching the error
values of the source (`os.ErrNotExist`, `os.ErrExist`, `ErrDirExists`,
`ErrInvalidChild`, `ErrNotYetImplemented`, `dag.ErrNotProtobuf`, the
UnixFS decode error, `uio.ErrNotADir`, the catch-all of `cacheNode`, and
context cancellation). -/
inductive Err where
  | notFound
  | alreadyExists
  | dirExists
  | invalidChild
  | notYetImplemented
  | notProtobuf
  | decodeFailed
  | notADir
  | unrecognizedNode
  | cancelled
deriving DecidableEq, Repr

/-- Association-list lookup used for link lists and the entries cache. -/
def lookupEntry {α : Type} : List (String × α) → String → Option α
  | [], _ => none
  | (k, v) :: rest, name => if k = name then some v else lookupEntry rest name

/-- Association-list update: replaces the entry under `name` in place
when present, otherwise appends a new entry at the end. -/
def setEntry {α : Type} : List (String × α) → String → α → List (String × α)
  | [], name, a => [(name, a)]
  | (k, v) :: rest, name, a =>
    if k = name then (k, a) :: rest else (k, v) :: setEntry rest name a

/-- Association-list removal of every entry under `name`. -/
def removeEntry {α : Type} (l : List (String × α)) (name : String) : List (String × α) :=
  l.filter (fun p => p.1 ≠ name)

/-- Modelled from the spec: the editable UnixFS directory view
(`uio.Directory`), which is not under `src/`.  Per the contract it keeps
the named links of one directory node, the sharding limits `MaxLinks`
and `MaxHAMTFanout`, the CID builder, and stat metadata; the internal
dense-vs-HAMT re-shaping is out of scope, so the links are kept as one
ordered association list. -/
structure UnixfsDir where
  links : List (String × IpldNode)
  maxLinks : Nat
  maxHAMTFanout : Nat
  cidBuilder : Nat
  mode : Nat
  modTime : Int

/-- Modelled from the spec: `uio.Directory.AddChild` semantically
replaces any existing entry under the same name (spec section 6); pure
part. -/
def UnixfsDir.addChildPure (u : UnixfsDir) (name : String) (nd : IpldNode) : UnixfsDir :=
  { u with links := setEntry u.links name nd }

/-- Modelled from the spec: `uio.Directory.AddChild` with its context
argument; a cancelled context makes the store operation fail. -/
def UnixfsDir.addChild (ctx : Ctx) (u : UnixfsDir) (name : String) (nd : IpldNode) :
    Except Err UnixfsDir :=
  if ctx.cancelled then .error .cancelled else .ok (u.addChildPure name nd)

/-- Modelled from the spec: `uio.Directory.RemoveChild`.  Non-existence
of the name is not an error at this layer (spec section 4.1); a
cancelled context makes the store operation fail. -/
def UnixfsDir.removeChild (ctx : Ctx) (u : UnixfsDir) (name : String) : Except Err UnixfsDir :=
  if ctx.cancelled then .error .cancelled
  else .ok { u with links := removeEntry u.links name }

/-- Modelled from the spec: `uio.Directory.Find` resolves a name to the
linked node, failing with the not-found error when the name is not
linked; a cancelled context makes the store operation fail. -/
def UnixfsDir.find (ctx : Ctx) (u : UnixfsDir) (name : String) : Except Err IpldNode :=
  if ctx.cancelled then .error .cancelled
  else
    match lookupEntry u.links name with
    | some nd => .ok nd
    | none => .error .notFound

/-- Modelled from the spec: `uio.Directory.GetNode` serializes the
current directory state into a protobuf node of UnixFS kind
`Directory`, stamped with the stat metadata and carrying the view's CID
builder.  It performs no store I/O. -/
def UnixfsDir.getNodePure (u : UnixfsDir) : IpldNode :=
  .proto (some ⟨.tDirectory, u.mode, u.modTime⟩) u.links u.cidBuilder

/-- Modelled from the spec: `uio.NewDirectoryFromNode` builds an
editable view over an existing directory node.  It requires a protobuf
node whose UnixFS data decodes to kind `Directory` or `HAMTShard`; the
view's links, stat metadata and CID builder are those of the node
itself (the builder is recoverable from the node's CID), and the
sharding limits start at the implementation defaults (0 = unlimited). -/
def newDirectoryFromNode (nd : IpldNode) : Except Err UnixfsDir :=
  match nd with
  | .proto (some d) links b =>
    if d.typ = .tDirectory ∨ d.typ = .tHAMTShard then
      .ok { links := links, maxLinks := 0, maxHAMTFanout := 0,
            cidBuilder := b, mode := d.mode, modTime := d.modTime }
    else .error .notADir
  | .proto none _ _ => .error .decodeFailed
  | _ => .error .notADir

/-- Modelled from the spec: the DAG service (`ipld.DAGService`).  The
store is content addressed, so it is the collection of nodes it holds;
`add` is idempotent by CID, hence a listing with possible duplicates
denotes the same store as its dedup. -/
def DagStore : Type := List IpldNode

/-- Modelled from the spec: `DAGService.Add`; fails when the ambient
context is cancelled, otherwise records the node. -/
def DagStore.add (ctx : Ctx) (ds : DagStore) (nd : IpldNode) : Except Err DagStore :=
  if ctx.cancelled then .error .cancelled else .ok (List.append ds [nd])

/-- Overlay nodes (`FSNode` in the source): either a `Directory`
overlay — name, backing `UnixfsDir` and entries cache — or a `File`
overlay holding its current DAG node.  The parent back-reference and
the shared DAG service of the source's `inode` are handled outside the
state: propagation is passed explicitly and the store is threaded. -/
inductive FSNode where
  | dir (name : String) (unixfsDir : UnixfsDir) (entriesCache : List (String × FSNode))
  | file (name : String) (node : IpldNode)

/-- The `Directory` overlay state: its name, the backing UnixFS
directory view, and the internal entries cache (`entriesCache` in the
source) whose contents are synched with the underlying node in
`cacheSync`. -/
structure Directory where
  name : String
  unixfsDir : UnixfsDir
  entriesCache : List (String × FSNode)

/-- View of a `Directory` as the cacheable overlay value. -/
def Directory.toFSNode (d : Directory) : FSNode :=
  .dir d.name d.unixfsDir d.entriesCache

/-- Options of `MkdirWithOpts` (`MkdirOpts` in the source). -/
structure MkdirOpts where
  maxLinks : Nat
  maxHAMTFanout : Nat
  mode : Nat
  modTime : Int
  cidBuilder : Nat

/-- Modelled from the spec: `NewFile` (in `mfs/file.go`, not under
`src/`) wraps a DAG node into a `File` overlay holding that node. -/
def NewFile (name : String) (nd : IpldNode) : Except Err FSNode :=
  .ok (.file name nd)

/-- Source function NewDirectory (dir.go): builds a directory overlay over an
existing node via `uio.NewDirectoryFromNode`, with an empty entries
cache. -/
def NewDirectory (name : String) (nd : IpldNode) : Except Err Directory :=
  match newDirectoryFromNode nd with
  | .error e => .error e
  | .ok db => .ok { name := name, unixfsDir := db, entriesCache := [] }

/-- Source function NewEmptyDirectory (dir.go): builds an empty UnixFS directory from
the options, obtains its node, adds it to the DAG service, and wraps it
into a directory overlay with an empty cache. -/
def NewEmptyDirectory (ctx : Ctx) (name : String) (opts : MkdirOpts) (ds : DagStore) :
    Except Err (Directory × DagStore) :=
  let db : UnixfsDir :=
    { links := [], maxLinks := opts.maxLinks, maxHAMTFanout := opts.maxHAMTFanout,
      cidBuilder := opts.cidBuilder, mode := opts.mode, modTime := opts.modTime }
  let nd := db.getNodePure
  match DagStore.add ctx ds nd with
  | .error e => .error e
  | .ok ds' => .ok ({ name := name, unixfsDir := db, entriesCache := [] }, ds')

/-- Source method Directory.GetCidBuilder (dir.go): delegates to the backing
store. -/
def Directory.GetCidBuilder (d : Directory) : Nat :=
  d.unixfsDir.cidBuilder

/-- Source method Directory.cacheNode (dir.go): dispatches on the node kind,
materializes the overlay of the matching variant, stores it in the
entries cache and returns it.  A protobuf node of UnixFS kind
`Directory` or `HAMTShard` becomes a directory overlay whose sharding
limits are inherited from the parent (those options are not persisted);
kind `File`, `Raw` or `Symlink` becomes a file overlay; `Metadata`
fails not-yet-implemented; any other kind fails invalid-child; a raw
DAG node becomes a file overlay; any other node class is
unrecognized. -/
def Directory.cacheNode (d : Directory) (name : String) (nd : IpldNode) :
    Except Err (FSNode × Directory) :=
  match nd with
  | .proto pdata links b =>
    match pdata with
    | none => .error .decodeFailed
    | some fsn =>
      match fsn.typ with
      | .tDirectory | .tHAMTShard =>
        match NewDirectory name (.proto (some fsn) links b) with
        | .error e => .error e
        | .ok ndir0 =>
          let ndir : Directory :=
            { ndir0 with unixfsDir :=
              { ndir0.unixfsDir with
                maxLinks := d.unixfsDir.maxLinks,
                maxHAMTFanout := d.unixfsDir.maxHAMTFanout } }
          .ok (ndir.toFSNode,
               { d with entriesCache := setEntry d.entriesCache name ndir.toFSNode })
      | .tFile | .tRaw | .tSymlink =>
        match NewFile name (.proto (some fsn) links b) with
        | .error e => .error e
        | .ok nfi =>
          .ok (nfi, { d with entriesCache := setEntry d.entriesCache name nfi })
      | .tMetadata => .error .notYetImplemented
      | .tOther => .error .invalidChild
  | .raw bytes =>
    match NewFile name (.raw bytes) with
    | .error e => .error e
    | .ok nfi =>
      .ok (nfi, { d with entriesCache := setEntry d.entriesCache name nfi })
  | .other => .error .unrecognizedNode

/-- Source method Directory.childFromDag (dir.go): searches the backing store for a
child link with the given name. -/
def Directory.childFromDag (ctx : Ctx) (d : Directory) (name : String) : Except Err IpldNode :=
  d.unixfsDir.find ctx name

/-- Source method Directory.childUnsync (dir.go): returns the cached overlay when
present; otherwise resolves the name in the backing store and
materializes it through `cacheNode`. -/
def Directory.childUnsync (ctx : Ctx) (d : Directory) (name : String) :
    Except Err (FSNode × Directory) :=
  match lookupEntry d.entriesCache name with
  | some entry => .ok (entry, d)
  | none =>
    match d.childFromDag ctx name with
    | .error e => .error e
    | .ok nd => d.cacheNode name nd

/-- Source method Directory.Child (dir.go): `childUnsync` under the directory
lock.  The lock serializes access and is not part of the sequential
state. -/
def Directory.Child (ctx : Ctx) (d : Directory) (name : String) :
    Except Err (FSNode × Directory) :=
  d.childUnsync ctx name

/-- Source method Directory.Uncache (dir.go): drops the cache entry without
touching the store. -/
def Directory.Uncache (d : Directory) (name : String) : Directory :=
  { d with entriesCache := removeEntry d.entriesCache name }

/-- Source method Directory.Unlink (dir.go): deletes the name from the entries
cache, then removes the child from the backing store.  The updated
directory state is returned alongside the result so that the effect of
a failing `RemoveChild` stays observable. -/
def Directory.Unlink (ctx : Ctx) (d : Directory) (name : String) :
    Except Err Unit × Directory :=
  let d1 : Directory := { d with entriesCache := removeEntry d.entriesCache name }
  match d1.unixfsDir.removeChild ctx name with
  | .error e => (.error e, d1)
  | .ok u => (.ok (), { d1 with unixfsDir := u })

mutual

/-- Source method FSNode.GetNode over the overlay tree.  A file overlay just
returns its held node (modelled from the spec, `mfs/file.go` is not
under `src/`).  A directory overlay runs `getNode(false)` from dir.go:
sync the cache into the backing store, serialize the current node, add
it to the DAG service and return a copy. -/
def FSNode.getNodeRec (ctx : Ctx) : FSNode → DagStore → Except Err (IpldNode × FSNode × DagStore)
  | .file n nd, ds => .ok (nd, .file n nd, ds)
  | .dir n u c, ds =>
    match cacheSyncRec ctx c u ds with
    | .error e => .error e
    | .ok (u', c', ds') =>
      let nd := u'.getNodePure
      match DagStore.add ctx ds' nd with
      | .error e => .error e
      | .ok ds'' => .ok (nd, .dir n u' c', ds'')

/-- The loop body of `Directory.cacheSync` (dir.go): for each cached
entry, fetch the entry's current node and `AddChild` it into the
backing store, aborting on the first error. -/
def cacheSyncRec (ctx : Ctx) : List (String × FSNode) → UnixfsDir → DagStore →
    Except Err (UnixfsDir × List (String × FSNode) × DagStore)
  | [], u, ds => .ok (u, [], ds)
  | (n, e) :: rest, u, ds =>
    match e.getNodeRec ctx ds with
    | .error err => .error err
    | .ok (nd, e', ds') =>
      match u.addChild ctx n nd with
      | .error err => .error err
      | .ok u' =>
        match cacheSyncRec ctx rest u' ds' with
        | .error err => .error err
        | .ok (u'', rest', ds'') => .ok (u'', (n, e') :: rest', ds'')

end

/-- Source method Directory.cacheSync (dir.go): reifies every pending cache entry
into the backing store; when `clean` is set, replaces the cache with an
empty mapping after a successful pass. -/
def Directory.cacheSync (ctx : Ctx) (clean : Bool) (d : Directory) (ds : DagStore) :
    Except Err (Directory × DagStore) :=
  match cacheSyncRec ctx d.entriesCache d.unixfsDir ds with
  | .error e => .error e
  | .ok (u', c', ds') =>
    let c2 := if clean then [] else c'
    .ok ({ d with unixfsDir := u', entriesCache := c2 }, ds')

/-- Source method Directory.getNode(cacheClean) (dir.go): sync the cache (clearing
it when `cacheClean`), serialize the current directory node, add it to
the DAG service and return a copy of it. -/
def Directory.getNode (ctx : Ctx) (cacheClean : Bool) (d : Directory) (ds : DagStore) :
    Except Err (IpldNode × Directory × DagStore) :=
  match d.cacheSync ctx cacheClean ds with
  | .error e => .error e
  | .ok (d', ds') =>
    let nd := d'.unixfsDir.getNodePure
    match DagStore.add ctx ds' nd with
    | .error e => .error e
    | .ok ds'' => .ok (nd, d', ds'')

/-- Source method Directory.GetNode (dir.go): `getNode(false)`. -/
def Directory.GetNode (ctx : Ctx) (d : Directory) (ds : DagStore) :
    Except Err (IpldNode × Directory × DagStore) :=
  d.getNode ctx false ds

/-- Source method Directory.Flush (dir.go): obtains the current node via
`getNode(true)` and emits `updateChildEntry{name, node}` to the parent.
The parent is passed as the propagation continuation `propagate`;
its result is the result of the flush.  The directory state after the
internal `getNode(true)` is returned in every case. -/
def Directory.Flush (ctx : Ctx) (d : Directory) (ds : DagStore)
    (propagate : String → IpldNode → Except Err Unit) :
    Except Err Unit × Directory × DagStore :=
  match d.getNode ctx true ds with
  | .error e => (.error e, d, ds)
  | .ok (nd, d', ds') => (propagate d.name nd, d', ds')

/-- Source method Directory.AddChild (dir.go): fails `ErrDirExists` when the name
already resolves (through cache or backing store); otherwise adds the
node to the DAG service and links it under the name in the backing
store, creating no overlay. -/
def Directory.AddChild (ctx : Ctx) (d : Directory) (name : String) (nd : IpldNode)
    (ds : DagStore) : Except Err Unit × Directory × DagStore :=
  match d.childUnsync ctx name with
  | .ok (_, d') => (.error .dirExists, d', ds)
  | .error _ =>
    match DagStore.add ctx ds nd with
    | .error e => (.error e, d, ds)
    | .ok ds' =>
      match d.unixfsDir.addChild ctx name nd with
      | .error e => (.error e, d, ds')
      | .ok u' => (.ok (), { d with unixfsDir := u' }, ds')

/-- Result of `MkdirWithOpts` (dir.go).  `created` is the success
return; `existsDir` is the pair `(fsn, os.ErrExist)` returned when the
name resolves to a directory overlay; `existsFile` is `(nil,
os.ErrExist)` when it resolves to a file overlay; `failed` carries any
other error. -/
inductive MkdirOutcome where
  | created (dir : Directory)
  | existsDir (dir : Directory)
  | existsFile
  | failed (e : Err)

/-- Source method Directory.MkdirWithOpts (dir.go): when the name already resolves,
returns the existing overlay with `os.ErrExist`; otherwise constructs a
new empty directory with the opts' CID builder overridden by the
parent's current builder, obtains its node, links it under the name in
the backing store, caches the new overlay, and returns it. -/
def Directory.MkdirWithOpts (ctx : Ctx) (d : Directory) (name : String) (opts : MkdirOpts)
    (ds : DagStore) : MkdirOutcome × Directory × DagStore :=
  match d.childUnsync ctx name with
  | .ok (fsn, d') =>
    match fsn with
    | .dir n u c => (.existsDir ⟨n, u, c⟩, d', ds)
    | .file _ _ => (.existsFile, d', ds)
  | .error _ =>
    let opts' : MkdirOpts := { opts with cidBuilder := d.GetCidBuilder }
    match NewEmptyDirectory ctx name opts' ds with
    | .error e => (.failed e, d, ds)
    | .ok (dirobj, ds1) =>
      match dirobj.getNode ctx false ds1 with
      | .error e => (.failed e, d, ds1)
      | .ok (ndir, dirobj', ds2) =>
        match d.unixfsDir.addChild ctx name ndir with
        | .error e => (.failed e, d, ds2)
        | .ok u' =>
          let c2 := setEntry d.entriesCache name dirobj'.toFSNode
          (.created dirobj', { d with unixfsDir := u', entriesCache := c2 }, ds2)

/-- Source method Directory.Mkdir (dir.go): `MkdirWithOpts` with the parent's
sharding limits and otherwise zero-valued options. -/
def Directory.Mkdir (ctx : Ctx) (d : Directory) (name : String) (ds : DagStore) :
    MkdirOutcome × Directory × DagStore :=
  d.MkdirWithOpts ctx name
    { maxLinks := d.unixfsDir.maxLinks, maxHAMTFanout := d.unixfsDir.maxHAMTFanout,
      mode := 0, modTime := 0, cidBuilder := 0 } ds

/-! ### Lock-event instrumentation

The mutex of each directory overlay is erased in the sequential state
model above.  To reason about the locking discipline, the following
trace functions record, for the relevant operations, the sequence of
lock acquisitions, lock releases and child-overlay method invocations
exactly as they occur in the source. -/

/-- Lock events: a directory's mutex is taken or released, or a
directory invokes a method of one of its child overlays. -/
inductive LockEv where
  | lock (dir : String)
  | unlock (dir : String)
  | childCall (dir : String) (child : String)
deriving DecidableEq, Repr

mutual

/-- Lock/call trace of `FSNode.GetNode`.  A file overlay takes no
directory lock.  A directory overlay runs `getNode` (dir.go line 436:
`d.lock.Lock()`, deferred unlock), whose `cacheSync` (line 398) invokes
`entry.GetNode()` on every cached child overlay while the directory
lock is still held; a child directory's `GetNode` recursively takes its
own lock. -/
def FSNode.getNodeTrace : FSNode → List LockEv
  | .file _ _ => []
  | .dir n _ c => .lock n :: (cacheSyncTrace n c ++ [.unlock n])

/-- Lock/call trace of the `cacheSync` loop (dir.go lines 396-412), run
while the lock of `parent` is held: each cached entry gets a
`entry.GetNode()` invocation, whose own trace follows. -/
def cacheSyncTrace (parent : String) : List (String × FSNode) → List LockEv
  | [] => []
  | (n, e) :: rest => .childCall parent n :: (e.getNodeTrace ++ cacheSyncTrace parent rest)

end

/-- Lock/call trace of `updateChildEntry` along the chain of ancestor
directories (dir.go lines 118-127): at each ancestor, `localUpdate`
takes that directory's lock (line 134), updates the UnixFS layer and
the DAG service without invoking any child overlay method, releases the
lock, and only then the call continues at the next ancestor.  The
`Root` terminates the chain and contributes no directory lock. -/
def updateChildEntryTrace : List String → List LockEv
  | [] => []
  | n :: ups => .lock n :: .unlock n :: updateChildEntryTrace ups

/-- Scans a trace with `held` locks currently taken; true iff some
child-overlay method invocation happens while at least one directory
lock is held. -/
def callsChildUnderLock : List LockEv → Nat → Bool
  | [], _ => false
  | .lock _ :: rest, held => callsChildUnderLock rest (held + 1)
  | .unlock _ :: rest, held => callsChildUnderLock rest (held - 1)
  | .childCall _ _ :: rest, held => held > 0 || callsChildUnderLock rest held

/-- Scans a trace with `held` locks currently taken; true iff some lock
is acquired while another is already held. -/
def acquiresNestedLock : List LockEv → Nat → Bool
  | [], _ => false
  | .lock _ :: rest, held => held > 0 || acquiresNestedLock rest (held + 1)
  | .unlock _ :: rest, held => acquiresNestedLock rest (held - 1)
  | .childCall _ _ :: rest, held => acquiresNestedLock rest held

/-! ### Derived descriptions used in theorem statements -/

/-- The directory overlay that `MkdirWithOpts` creates when the name is
free: an empty directory built from the options, with the CID builder
forced to the parent's current builder. -/
def mkdirResultDir (d : Directory) (n : String) (opts : MkdirOpts) : Directory :=
  { name := n,
    unixfsDir :=
      { links := [], maxLinks := opts.maxLinks, maxHAMTFanout := opts.maxHAMTFanout,
        cidBuilder := d.unixfsDir.cidBuilder, mode := opts.mode, modTime := opts.modTime },
    entriesCache := [] }

/-- The UnixFS view of a child directory overlay materialized by
`cacheNode` from a protobuf node with data `fsd`, links `links` and
builder `b`: the links, stat metadata and builder come from the node,
the sharding limits from the parent `d`. -/
def materializedChildDir (d : Directory) (fsd : FSData) (links : List (String × IpldNode))
    (b : Nat) : UnixfsDir :=
  { links := links, maxLinks := d.unixfsDir.maxLinks,
    maxHAMTFanout := d.unixfsDir.maxHAMTFanout, cidBuilder := b,
    mode := fsd.mode, modTime := fsd.modTime }

/-- The directory state after an overlay for `n` has been inserted into
the entries cache (`d.entriesCache[name] = ...` in the source). -/
def cacheInserted (d : Directory) (n : String) (fsn : FSNode) : Directory :=
  { d with entriesCache := setEntry d.entriesCache n fsn }

/-- The parent directory state after a successful `MkdirWithOpts`: the
fresh directory node linked under `n` in the backing store and the new
overlay inserted into the entries cache. -/
def mkdirParentAfter (d : Directory) (n : String) (opts : MkdirOpts) : Directory :=
  { d with
    unixfsDir := d.unixfsDir.addChildPure n (mkdirResultDir d n opts).unixfsDir.getNodePure,
    entriesCache := setEntry d.entriesCache n (mkdirResultDir d n opts).toFSNode }

/-! ### Concrete states used by witnesses and counterexamples -/

/-- A non-cancelled context. -/
def ctxOk : Ctx := ⟨false⟩

/-- A cancelled context: every store operation fails. -/
def ctxCancelled : Ctx := ⟨true⟩

/-- Example backing store with no links, sharding limits 3 and 5, CID
builder 7. -/
def exU0 : UnixfsDir :=
  { links := [], maxLinks := 3, maxHAMTFanout := 5, cidBuilder := 7, mode := 420, modTime := 100 }

/-- Example raw leaf node. -/
def exRawNode : IpldNode := .raw [1, 2, 3]

/-- Example file overlay holding the raw leaf. -/
def exFile : FSNode := .file "f" exRawNode

/-- Example protobuf node of UnixFS kind Directory, with no links and
CID builder 9 (different from the builder 7 of `exU0`). -/
def exDirNode9 : IpldNode := .proto (some ⟨.tDirectory, 0, 0⟩) [] 9

/-- Example directory overlay whose backing store links name "a" to
`exDirNode9` and whose entries cache is empty. -/
def exParent : Directory :=
  { name := "r",
    unixfsDir :=
      { links := [("a", exDirNode9)], maxLinks := 3, maxHAMTFanout := 5, cidBuilder := 7,
        mode := 0, modTime := 0 },
    entriesCache := [] }

/-- The child view materialized from `exDirNode9` under `exParent`:
sharding limits 3 and 5 inherited from the parent, builder 9 from the
node itself. -/
def exChildU : UnixfsDir :=
  { links := [], maxLinks := 3, maxHAMTFanout := 5, cidBuilder := 9, mode := 0, modTime := 0 }

/-- Example directory overlay with no links and no cached entries. -/
def exEmptyDir : Directory := ⟨"r", exU0, []⟩

/-- Example mkdir options whose CID builder 42 differs from the parent
builder 7 of `exU0`. -/
def exOpts42 : MkdirOpts :=
  { maxLinks := 2, maxHAMTFanout := 4, mode := 493, modTime := 50, cidBuilder := 42 }

/-! ### Helper lemmas -/

/-- Looking up the name just set by `setEntry` yields the new value. -/
theorem lookupEntry_setEntry_self {α : Type} (l : List (String × α)) (n : String) (a : α) :
    lookupEntry (setEntry l n a) n = some a := by
  induction l with
  | nil => simp [setEntry, lookupEntry]
  | cons p rest ih =>
    obtain ⟨k, v⟩ := p
    by_cases hk : k = n
    · simp [setEntry, hk, lookupEntry]
    · simp [setEntry, hk, lookupEntry, ih]

/-- Looking up a name just removed by `removeEntry` yields nothing. -/
theorem lookupEntry_removeEntry_self {α : Type} (l : List (String × α)) (n : String) :
    lookupEntry (removeEntry l n) n = none := by
  induction l with
  | nil => rfl
  | cons p rest ih =>
    obtain ⟨k, v⟩ := p
    by_cases hk : k = n
    · simpa [removeEntry, List.filter_cons, hk] using ih
    · simpa [removeEntry, List.filter_cons, hk, lookupEntry] using ih

/-- On a non-cancelled context, `DAGService.Add` records the node. -/
theorem DagStore.add_of_not_cancelled {ctx : Ctx} (h : ctx.cancelled = false)
    (ds : DagStore) (nd : IpldNode) : DagStore.add ctx ds nd = .ok (List.append ds [nd]) := by
  simp [DagStore.add, h]

/-- A successful `DAGService.Add` means the context was not
cancelled. -/
theorem not_cancelled_of_add_ok {ctx : Ctx} {ds : DagStore} {nd : IpldNode} {r : DagStore}
    (h : DagStore.add ctx ds nd = .ok r) : ctx.cancelled = false := by
  by_cases hc : ctx.cancelled
  · simp [DagStore.add, hc] at h
  · simpa using hc

/-- Unfolding equation of `Directory.getNode` in terms of the cache
sync loop and the store add. -/
theorem getNode_eq (ctx : Ctx) (clean : Bool) (d : Directory) (ds : DagStore) :
    d.getNode ctx clean ds =
      match cacheSyncRec ctx d.entriesCache d.unixfsDir ds with
      | .error e => .error e
      | .ok (u', c', ds1) =>
        match DagStore.add ctx ds1 u'.getNodePure with
        | .error e => .error e
        | .ok ds2 =>
          .ok (u'.getNodePure, ⟨d.name, u', if clean then [] else c'⟩, ds2) := by
  unfold Directory.getNode Directory.cacheSync
  cases hs : cacheSyncRec ctx d.entriesCache d.unixfsDir ds with
  | error e => rfl
  | ok t =>
    obtain ⟨u', c', ds1⟩ := t
    cases DagStore.add ctx ds1 u'.getNodePure <;> rfl

/-- Inversion of a successful `getNode`: the context was live, the
returned node is the serialization of the updated backing store, the
name is unchanged, and with `clean = true` the cache came out empty. -/
theorem getNode_ok_inv {ctx : Ctx} {clean : Bool} {d : Directory} {ds : DagStore}
    {nd : IpldNode} {d' : Directory} {ds' : DagStore}
    (h : d.getNode ctx clean ds = .ok (nd, d', ds')) :
    ctx.cancelled = false ∧ nd = d'.unixfsDir.getNodePure ∧ d'.name = d.name ∧
      (clean = true → d'.entriesCache = []) := by
  rw [getNode_eq] at h
  cases hs : cacheSyncRec ctx d.entriesCache d.unixfsDir ds with
  | error e => rw [hs] at h; exact absurd h (by simp)
  | ok t =>
    obtain ⟨u', c', ds1⟩ := t
    rw [hs] at h
    dsimp only at h
    cases ha : DagStore.add ctx ds1 u'.getNodePure with
    | error e => rw [ha] at h; exact absurd h (by simp)
    | ok ds2 =>
      rw [ha] at h
      dsimp only at h
      have hc := not_cancelled_of_add_ok ha
      simp only [Except.ok.injEq, Prod.mk.injEq] at h
      obtain ⟨h1, h2, h3⟩ := h
      subst h2
      exact ⟨hc, by simp [h1], rfl, fun hcl => by simp [hcl]⟩

/-! ### C1 — flush and the entries cache -/

/-- C1 (counterexample): the claim that a successful `Flush` leaves the
entries cache unchanged fails on the code.  On a directory whose cache
holds one file entry, `Flush` succeeds (the upward propagation
accepting the update) and the resulting cache is empty, while the cache
before the call was not: `Flush` calls `getNode(true)`, which clears
the cache on a successful sync. -/
theorem C1_flush_keeps_cache_counterexample :
    (Directory.Flush ctxOk ⟨"d", exU0, [("f", exFile)]⟩ [] (fun _ _ => .ok ())).1 = .ok () ∧
    (Directory.Flush ctxOk ⟨"d", exU0, [("f", exFile)]⟩ [] (fun _ _ => .ok ())).2.1.entriesCache
      = [] ∧
    (⟨"d", exU0, [("f", exFile)]⟩ : Directory).entriesCache ≠ [] := by
  refine ⟨rfl, rfl, ?_⟩
  simp

/-- C1 (amended): a successful `Flush` clears the directory's entries
cache — `Flush` obtains the node via `getNode(true)`, whose cache sync
replaces the cache with an empty mapping, before propagating the node
upward. -/
theorem C1_flush_clears_cache (ctx : Ctx) (d : Directory) (ds : DagStore)
    (propagate : String → IpldNode → Except Err Unit)
    (h : (d.Flush ctx ds propagate).1 = .ok ()) :
    (d.Flush ctx ds propagate).2.1.entriesCache = [] := by
  unfold Directory.Flush at h ⊢
  cases hg : d.getNode ctx true ds with
  | error e => rw [hg] at h; exact absurd h (by simp)
  | ok t =>
    obtain ⟨nd, d', ds'⟩ := t
    dsimp only
    exact (getNode_ok_inv hg).2.2.2 rfl

/-- C1 (witness for the amended theorem): on a concrete directory with
one cached file entry and an accepting parent, the flush leaves an
empty cache. -/
theorem C1_flush_clears_cache_witness :
    (Directory.Flush ctxOk ⟨"dw", exU0, [("g", exFile)]⟩ [] (fun _ _ => .ok ())).2.1.entriesCache
      = [] :=
  C1_flush_clears_cache ctxOk ⟨"dw", exU0, [("g", exFile)]⟩ [] (fun _ _ => .ok ()) rfl

/-! ### C7 — unlink of an absent name -/

/-- C7: for a live context and a name that is neither in the entries
cache nor linked in the backing store, `Unlink` succeeds: non-existence
is silent success at this layer (the modelled `RemoveChild` treats the
absent name as a no-op per the spec contract). -/
theorem C7_unlink_absent_silent_success (ctx : Ctx) (d : Directory) (name : String)
    (hctx : ctx.cancelled = false)
    (_hcache : lookupEntry d.entriesCache name = none)
    (_hstore : lookupEntry d.unixfsDir.links name = none) :
    (d.Unlink ctx name).1 = .ok () := by
  unfold Directory.Unlink UnixfsDir.removeChild
  simp [hctx]

/-- C7 (witness): unlinking the absent name "z" from a directory with
an empty cache and no links succeeds. -/
theorem C7_unlink_absent_silent_success_witness :
    (Directory.Unlink ctxOk ⟨"d7", exU0, []⟩ "z").1 = .ok () :=
  C7_unlink_absent_silent_success ctxOk ⟨"d7", exU0, []⟩ "z" rfl rfl rfl

/-! ### C10 — unlink is not atomic on error -/

/-- C10: when the backing store's `RemoveChild` fails (here through a
cancelled context), `Unlink` surfaces the error, but the cache entry
under the name has already been deleted: the cache delete happens
before the store call, so a later `child(name)` would re-read the
backing store instead of returning the previously cached overlay. -/
theorem C10_unlink_not_atomic (ctx : Ctx) (d : Directory) (name : String)
    (hctx : ctx.cancelled = true) :
    d.Unlink ctx name =
      (.error .cancelled, { d with entriesCache := removeEntry d.entriesCache name }) ∧
    lookupEntry (d.Unlink ctx name).2.entriesCache name = none := by
  unfold Directory.Unlink UnixfsDir.removeChild
  simp [hctx, lookupEntry_removeEntry_self]

/-- C10 (witness): unlinking the cached name "f" under a cancelled
context fails with the cancellation error while the cache entry is
already gone. -/
theorem C10_unlink_not_atomic_witness :
    Directory.Unlink ctxCancelled ⟨"da", exU0, [("f", exFile)]⟩ "f" =
      (.error .cancelled,
       { (⟨"da", exU0, [("f", exFile)]⟩ : Directory) with
         entriesCache := removeEntry [("f", exFile)] "f" }) ∧
    lookupEntry (Directory.Unlink ctxCancelled ⟨"da", exU0, [("f", exFile)]⟩ "f").2.entriesCache
      "f" = none :=
  C10_unlink_not_atomic ctxCancelled ⟨"da", exU0, [("f", exFile)]⟩ "f" rfl

/-! ### C8 — getNode(clean) is idempotent on the CID -/

/-- C8: after a successful `getNode(clean=true)`, calling
`getNode(clean=true)` again with no intervening mutation succeeds and
returns the identical node (hence the identical CID, nodes being
content-addressed): the second call syncs an empty cache and
re-serializes the same backing state. -/
theorem C8_getNode_clean_twice_same_cid (ctx : Ctx) (d : Directory) (ds : DagStore)
    (nd1 : IpldNode) (d1 : Directory) (ds1 : DagStore)
    (h : d.getNode ctx true ds = .ok (nd1, d1, ds1)) :
    d1.getNode ctx true ds1 = .ok (nd1, d1, List.append ds1 [nd1]) := by
  obtain ⟨hc, hnd, _, hcl⟩ := getNode_ok_inv h
  have hcache0 : d1.entriesCache = [] := hcl rfl
  rw [getNode_eq, hcache0]
  dsimp only [cacheSyncRec]
  rw [DagStore.add_of_not_cancelled hc]
  dsimp only
  rw [hnd]
  have he : (⟨d1.name, d1.unixfsDir, ([] : List (String × FSNode))⟩ : Directory) = d1 := by
    conv_rhs => rw [show d1 = ⟨d1.name, d1.unixfsDir, d1.entriesCache⟩ from rfl]
    rw [hcache0]
  simp [he]

/-- C8 (witness): on a concrete directory with an empty cache, the
first clean `getNode` returns the serialized backing node, and the
theorem applies to it. -/
theorem C8_getNode_clean_twice_same_cid_witness :
    Directory.getNode ctxOk true ⟨"dc", exU0, []⟩ [exU0.getNodePure] =
      .ok (exU0.getNodePure, ⟨"dc", exU0, []⟩,
           List.append [exU0.getNodePure] [exU0.getNodePure]) :=
  C8_getNode_clean_twice_same_cid ctxOk ⟨"dc", exU0, []⟩ [] exU0.getNodePure
    ⟨"dc", exU0, []⟩ [exU0.getNodePure] rfl

/-! ### C9 — locking discipline -/

/-- C9 (counterexample): the claim that no directory-overlay operation
ever invokes a child overlay method while holding the parent's lock
fails on the code.  On a directory "p" whose cache holds the child
directory overlay "c", `GetNode` takes p's lock and, inside
`cacheSync`, invokes the child's `GetNode` (which then takes c's lock)
before releasing p's lock: the trace contains a child invocation under
a held lock. -/
theorem C9_no_child_call_under_lock_counterexample :
    callsChildUnderLock
      (FSNode.getNodeTrace (.dir "p" exU0 [("c", .dir "c" exU0 [])])) 0 = true := by
  rfl

/-- C9 (amended): the child-to-parent propagation path
(`updateChildEntry` / `localUpdate`) acquires directory locks one at a
time — each ancestor's lock is taken only after the previous one has
been released — and never invokes a child overlay method under a held
lock; the no-child-call-under-lock discipline holds on that path, while
`getNode`/`cacheSync` (and with them `ForEachEntry` and
`MkdirWithOpts`) do invoke child `GetNode` under the parent's lock. -/
theorem C9_propagation_lock_discipline (chain : List String) :
    acquiresNestedLock (updateChildEntryTrace chain) 0 = false ∧
    callsChildUnderLock (updateChildEntryTrace chain) 0 = false := by
  induction chain with
  | nil => exact ⟨rfl, rfl⟩
  | cons n ups ih =>
    simpa [updateChildEntryTrace, acquiresNestedLock, callsChildUnderLock] using ih

/-- C9 (witness for the amended theorem): propagating through the
ancestor chain "a", "b" takes and releases each lock in turn, never
nesting and never calling into a child under a lock. -/
theorem C9_propagation_lock_discipline_witness :
    acquiresNestedLock (updateChildEntryTrace ["a", "b"]) 0 = false ∧
    callsChildUnderLock (updateChildEntryTrace ["a", "b"]) 0 = false :=
  C9_propagation_lock_discipline ["a", "b"]

/-! ### Helper lemmas about materialization -/

/-- A successful `cacheNode` returns the directory with the new overlay
inserted into the entries cache and nothing else changed. -/
theorem cacheNode_ok_inv {d : Directory} {n : String} {nd : IpldNode} {fsn : FSNode}
    {d' : Directory} (h : d.cacheNode n nd = .ok (fsn, d')) :
    d' = cacheInserted d n fsn := by
  unfold Directory.cacheNode at h
  cases nd with
  | proto pdata links b =>
    cases pdata with
    | none => exact absurd h (by simp)
    | some fsd =>
      obtain ⟨t, mo, mt⟩ := fsd
      cases t <;>
        simp only [NewDirectory, newDirectoryFromNode, NewFile] at h <;>
        simp at h <;>
        obtain ⟨h1, h2⟩ := h <;>
        subst h1 <;> subst h2 <;> rfl
  | raw bytes =>
    simp only [NewFile] at h
    simp at h
    obtain ⟨h1, h2⟩ := h
    subst h1; subst h2; rfl
  | other => exact absurd h (by simp)

/-- A successful `childUnsync` either hit the cache (state unchanged)
or materialized the overlay and inserted it into the cache. -/
theorem childUnsync_ok_inv {ctx : Ctx} {d : Directory} {n : String} {fsn : FSNode}
    {d' : Directory} (h : d.childUnsync ctx n = .ok (fsn, d')) :
    (lookupEntry d.entriesCache n = some fsn ∧ d' = d) ∨
    (lookupEntry d.entriesCache n = none ∧ d' = cacheInserted d n fsn) := by
  unfold Directory.childUnsync at h
  cases hl : lookupEntry d.entriesCache n with
  | some e =>
    rw [hl] at h
    simp at h
    obtain ⟨h1, h2⟩ := h
    subst h1; subst h2
    exact Or.inl ⟨rfl, rfl⟩
  | none =>
    rw [hl] at h
    dsimp only at h
    cases hf : d.childFromDag ctx n with
    | error e => rw [hf] at h; exact absurd h (by simp)
    | ok nd0 =>
      rw [hf] at h
      dsimp only at h
      exact Or.inr ⟨rfl, cacheNode_ok_inv h⟩

/-- A successful `childUnsync` leaves the name, the backing store and
the DAG untouched and guarantees the overlay is now cached under the
name. -/
theorem childUnsync_ok_frame {ctx : Ctx} {d : Directory} {n : String} {fsn : FSNode}
    {d' : Directory} (h : d.childUnsync ctx n = .ok (fsn, d')) :
    d'.name = d.name ∧ d'.unixfsDir = d.unixfsDir ∧
      lookupEntry d'.entriesCache n = some fsn := by
  rcases childUnsync_ok_inv h with ⟨hl, rfl⟩ | ⟨hl, rfl⟩
  · exact ⟨rfl, rfl, hl⟩
  · exact ⟨rfl, rfl, lookupEntry_setEntry_self d.entriesCache n fsn⟩

/-- Re-running `childUnsync` on the state a successful `childUnsync`
produced returns the same overlay and the same state: the cached
instance is returned on re-lookup. -/
theorem childUnsync_idem {ctx : Ctx} {d : Directory} {n : String} {fsn : FSNode}
    {d' : Directory} (h : d.childUnsync ctx n = .ok (fsn, d')) :
    d'.childUnsync ctx n = .ok (fsn, d') := by
  have hf := childUnsync_ok_frame h
  unfold Directory.childUnsync
  rw [hf.2.2]

/-- A failed `childUnsync` means the name was not in the entries
cache. -/
theorem childUnsync_error_cache_miss {ctx : Ctx} {d : Directory} {n : String} {e : Err}
    (h : d.childUnsync ctx n = .error e) :
    lookupEntry d.entriesCache n = none := by
  unfold Directory.childUnsync at h
  cases hl : lookupEntry d.entriesCache n with
  | some x => rw [hl] at h; exact absurd h (by simp)
  | none => rfl

/-! ### C2 — child resolution and materialization dispatch -/

/-- C2: when the name is cached, `childUnsync` returns the cached
overlay without touching the store; otherwise it resolves the name via
the backing store's `Find` and materializes by node kind: a protobuf
UnixFS node of kind Directory or HAMTShard yields a directory overlay
(inserted into the cache), kind File, Raw or Symlink yields a file
overlay (inserted into the cache), kind Metadata fails
not-yet-implemented, any other UnixFS kind fails invalid-child, and a
bare raw DAG leaf yields a file overlay (inserted into the cache). -/
theorem C2_child_materialization_dispatch (ctx : Ctx) (d : Directory) (n : String) :
    (∀ e, lookupEntry d.entriesCache n = some e → d.childUnsync ctx n = .ok (e, d)) ∧
    (lookupEntry d.entriesCache n = none →
      (∀ nd, d.childFromDag ctx n = .ok nd → d.childUnsync ctx n = d.cacheNode n nd) ∧
      (∀ fsd links b,
        ((fsd.typ = .tDirectory ∨ fsd.typ = .tHAMTShard) →
          d.cacheNode n (.proto (some fsd) links b) =
            .ok (.dir n (materializedChildDir d fsd links b) [],
                 cacheInserted d n (.dir n (materializedChildDir d fsd links b) []))) ∧
        ((fsd.typ = .tFile ∨ fsd.typ = .tRaw ∨ fsd.typ = .tSymlink) →
          d.cacheNode n (.proto (some fsd) links b) =
            .ok (.file n (.proto (some fsd) links b),
                 cacheInserted d n (.file n (.proto (some fsd) links b)))) ∧
        (fsd.typ = .tMetadata →
          d.cacheNode n (.proto (some fsd) links b) = .error .notYetImplemented) ∧
        (fsd.typ = .tOther →
          d.cacheNode n (.proto (some fsd) links b) = .error .invalidChild)) ∧
      (∀ bs, d.cacheNode n (.raw bs) =
        .ok (.file n (.raw bs), cacheInserted d n (.file n (.raw bs))))) := by
  constructor
  · intro e he
    unfold Directory.childUnsync
    rw [he]
  · intro hmiss
    refine ⟨?_, ?_, ?_⟩
    · intro nd hfind
      unfold Directory.childUnsync
      rw [hmiss]
      dsimp only
      rw [hfind]
    · intro fsd links b
      obtain ⟨t, mo, mt⟩ := fsd
      refine ⟨?_, ?_, ?_, ?_⟩ <;> intro ht
      · rcases ht with ht | ht <;> subst ht <;> rfl
      · rcases ht with ht | ht | ht <;> subst ht <;> rfl
      · subst ht; rfl
      · subst ht; rfl
    · intro bs
      rfl

/-- C2 (witness): on `exParent` the name "a" is not cached, resolves to
the protobuf directory node `exDirNode9`, and materializes as a
directory overlay inserted into the cache. -/
theorem C2_child_materialization_dispatch_witness :
    Directory.childUnsync ctxOk exParent "a" = Directory.cacheNode exParent "a" exDirNode9 ∧
    Directory.cacheNode exParent "a" (.proto (some ⟨.tDirectory, 0, 0⟩) [] 9) =
      .ok (.dir "a" (materializedChildDir exParent ⟨.tDirectory, 0, 0⟩ [] 9) [],
           cacheInserted exParent "a"
             (.dir "a" (materializedChildDir exParent ⟨.tDirectory, 0, 0⟩ [] 9) [])) :=
  ⟨((C2_child_materialization_dispatch ctxOk exParent "a").2 rfl).1 exDirNode9 rfl,
   (((C2_child_materialization_dispatch ctxOk exParent "a").2 rfl).2.1 ⟨.tDirectory, 0, 0⟩
      [] 9).1 (Or.inl rfl)⟩

/-! ### C6 — inherited settings of a materialized child directory -/

/-- C6 (counterexample): the claim that the CID builder of a lazily
materialized child directory equals the parent's fails on the code.
Under `exParent` (builder 7), resolving "a" materializes the child from
`exDirNode9` (a node whose own builder is 9): the sharding limits are
inherited from the parent, but the CID builder of the child view is 9,
not 7 — `cacheNode` copies only `MaxLinks` and `MaxHAMTFanout` from the
parent. -/
theorem C6_builder_inheritance_counterexample :
    Directory.childUnsync ctxOk exParent "a" =
      .ok (.dir "a" exChildU [], cacheInserted exParent "a" (.dir "a" exChildU [])) ∧
    exChildU.maxLinks = exParent.unixfsDir.maxLinks ∧
    exChildU.maxHAMTFanout = exParent.unixfsDir.maxHAMTFanout ∧
    exChildU.cidBuilder ≠ exParent.unixfsDir.cidBuilder := by
  refine ⟨rfl, rfl, rfl, ?_⟩
  decide

/-- C6 (amended): a child directory materialized by `cacheNode` from a
protobuf node of kind Directory or HAMTShard inherits `max_links` and
`max_hamt_fanout` from its parent at materialization time (these are
not persisted in the DAG), while its CID builder is the one carried by
the child's own node. -/
theorem C6_child_inherits_sharding_limits (d : Directory) (n : String) (fsd : FSData)
    (links : List (String × IpldNode)) (b : Nat)
    (h : fsd.typ = .tDirectory ∨ fsd.typ = .tHAMTShard) :
    d.cacheNode n (.proto (some fsd) links b) =
      .ok (.dir n (materializedChildDir d fsd links b) [],
           cacheInserted d n (.dir n (materializedChildDir d fsd links b) [])) ∧
    (materializedChildDir d fsd links b).maxLinks = d.unixfsDir.maxLinks ∧
    (materializedChildDir d fsd links b).maxHAMTFanout = d.unixfsDir.maxHAMTFanout ∧
    (materializedChildDir d fsd links b).cidBuilder = b := by
  obtain ⟨t, mo, mt⟩ := fsd
  rcases h with h | h <;> subst h <;> exact ⟨rfl, rfl, rfl, rfl⟩

/-- C6 (witness for the amended theorem): materializing "a" from
`exDirNode9` under `exParent` yields the child view `exChildU` with the
parent's limits 3 and 5 and the node's builder 9. -/
theorem C6_child_inherits_sharding_limits_witness :
    Directory.cacheNode exParent "a" (.proto (some ⟨.tDirectory, 0, 0⟩) [] 9) =
      .ok (.dir "a" (materializedChildDir exParent ⟨.tDirectory, 0, 0⟩ [] 9) [],
           cacheInserted exParent "a"
             (.dir "a" (materializedChildDir exParent ⟨.tDirectory, 0, 0⟩ [] 9) [])) ∧
    (materializedChildDir exParent ⟨.tDirectory, 0, 0⟩ [] 9).maxLinks = 3 ∧
    (materializedChildDir exParent ⟨.tDirectory, 0, 0⟩ [] 9).maxHAMTFanout = 5 ∧
    (materializedChildDir exParent ⟨.tDirectory, 0, 0⟩ [] 9).cidBuilder = 9 :=
  C6_child_inherits_sharding_limits exParent "a" ⟨.tDirectory, 0, 0⟩ [] 9 (Or.inl rfl)

/-! ### C4 — mkdir on an existing name -/

/-- C4 (counterexample): the claim that `mkdir` on an existing name
leaves the cache unchanged fails on the code.  On `exParent`, where "a"
is linked in the backing store but not cached, `Mkdir "a"` returns the
existing directory overlay with the already-exists outcome — but the
resolution that detected the collision materialized the overlay and
inserted it into the entries cache, which therefore changed. -/
theorem C4_mkdir_exists_counterexample :
    (Directory.Mkdir ctxOk exParent "a" []).1 = .existsDir ⟨"a", exChildU, []⟩ ∧
    (Directory.Mkdir ctxOk exParent "a" []).2.1.entriesCache =
      [("a", .dir "a" exChildU [])] ∧
    exParent.entriesCache = [] ∧
    ([("a", (.dir "a" exChildU [] : FSNode))] : List (String × FSNode)) ≠ [] := by
  refine ⟨rfl, rfl, rfl, ?_⟩
  simp

/-- C4 (amended): when the name resolves to a directory overlay,
`Mkdir` returns that overlay together with the already-exists outcome;
when it resolves to a file overlay, it returns already-exists with no
overlay.  The backing store and the DAG store are unchanged in both
cases; the entries cache is unchanged when the name was already cached,
and otherwise gains exactly the overlay materialized by the
resolution. -/
theorem C4_mkdir_on_existing (ctx : Ctx) (d : Directory) (n : String) (ds : DagStore)
    (fsn : FSNode) (d' : Directory) (h : d.childUnsync ctx n = .ok (fsn, d')) :
    (∀ a u c, fsn = .dir a u c → d.Mkdir ctx n ds = (.existsDir ⟨a, u, c⟩, d', ds)) ∧
    (∀ a nd0, fsn = .file a nd0 → d.Mkdir ctx n ds = (.existsFile, d', ds)) ∧
    d'.unixfsDir = d.unixfsDir ∧
    (lookupEntry d.entriesCache n = some fsn → d' = d) ∧
    (lookupEntry d.entriesCache n = none → d' = cacheInserted d n fsn) := by
  have hinv := childUnsync_ok_inv h
  refine ⟨?_, ?_, (childUnsync_ok_frame h).2.1, ?_, ?_⟩
  · intro a u c hf
    subst hf
    unfold Directory.Mkdir Directory.MkdirWithOpts
    rw [h]
  · intro a nd0 hf
    subst hf
    unfold Directory.Mkdir Directory.MkdirWithOpts
    rw [h]
  · intro hl
    rcases hinv with ⟨hl2, rfl⟩ | ⟨hl2, rfl⟩
    · rfl
    · rw [hl] at hl2
      exact absurd hl2 (by simp)
  · intro hl
    rcases hinv with ⟨hl2, rfl⟩ | ⟨hl2, rfl⟩
    · rw [hl] at hl2
      exact absurd hl2 (by simp)
    · rfl

/-- C4 (witness for the amended theorem): `Mkdir "a"` on `exParent`
returns the materialized child overlay with the already-exists outcome
and the store untouched. -/
theorem C4_mkdir_on_existing_witness :
    Directory.Mkdir ctxOk exParent "a" [] =
      (.existsDir ⟨"a", exChildU, []⟩,
       cacheInserted exParent "a" (.dir "a" exChildU []), []) :=
  (C4_mkdir_on_existing ctxOk exParent "a" [] (.dir "a" exChildU [])
    (cacheInserted exParent "a" (.dir "a" exChildU [])) rfl).1 "a" exChildU [] rfl

/-! ### C5 — add_child semantics -/

/-- C5: `AddChild` fails with the dir-exists error and leaves the
backing store and DAG store unchanged when the name already resolves —
and the prior entry still resolves to the same overlay afterwards;
otherwise it records the node in the DAG store and links it under the
name in the backing store, creating no overlay in the entries cache (a
subsequent `child(name)` goes through `cacheNode` and materializes
it). -/
theorem C5_addChild_semantics (ctx : Ctx) (d : Directory) (n : String) (nd : IpldNode)
    (ds : DagStore) :
    (∀ fsn d', d.childUnsync ctx n = .ok (fsn, d') →
      d.AddChild ctx n nd ds = (.error .dirExists, d', ds) ∧
      d'.unixfsDir = d.unixfsDir ∧
      d'.childUnsync ctx n = .ok (fsn, d')) ∧
    (∀ e, d.childUnsync ctx n = .error e → ctx.cancelled = false →
      d.AddChild ctx n nd ds =
        (.ok (), { d with unixfsDir := d.unixfsDir.addChildPure n nd },
         List.append ds [nd]) ∧
      ({ d with unixfsDir := d.unixfsDir.addChildPure n nd } : Directory).entriesCache
        = d.entriesCache ∧
      ({ d with unixfsDir := d.unixfsDir.addChildPure n nd } : Directory).childUnsync ctx n
        = Directory.cacheNode { d with unixfsDir := d.unixfsDir.addChildPure n nd } n nd) := by
  constructor
  · intro fsn d' h
    refine ⟨?_, (childUnsync_ok_frame h).2.1, childUnsync_idem h⟩
    unfold Directory.AddChild
    rw [h]
  · intro e h hctx
    have hmiss := childUnsync_error_cache_miss h
    refine ⟨?_, rfl, ?_⟩
    · unfold Directory.AddChild
      rw [h]
      dsimp only
      rw [DagStore.add_of_not_cancelled hctx]
      dsimp only
      simp [UnixfsDir.addChild, hctx]
    · unfold Directory.childUnsync
      rw [show ({ d with unixfsDir := d.unixfsDir.addChildPure n nd } : Directory).entriesCache
            = d.entriesCache from rfl, hmiss]
      dsimp only
      unfold Directory.childFromDag UnixfsDir.find
      simp [hctx, UnixfsDir.addChildPure, lookupEntry_setEntry_self]

/-- C5 (witness): adding under the occupied name "a" of `exParent`
fails dir-exists with the stores untouched; adding under the free name
"x" of `exEmptyDir` records the node and links it. -/
theorem C5_addChild_semantics_witness :
    Directory.AddChild ctxOk exParent "a" exRawNode [] =
      (.error .dirExists, cacheInserted exParent "a" (.dir "a" exChildU []), []) ∧
    Directory.AddChild ctxOk exEmptyDir "x" exRawNode [] =
      (.ok (), { exEmptyDir with unixfsDir := exEmptyDir.unixfsDir.addChildPure "x" exRawNode },
       List.append [] [exRawNode]) :=
  ⟨((C5_addChild_semantics ctxOk exParent "a" exRawNode []).1 (.dir "a" exChildU [])
      (cacheInserted exParent "a" (.dir "a" exChildU [])) rfl).1,
   ((C5_addChild_semantics ctxOk exEmptyDir "x" exRawNode []).2 .notFound rfl rfl).1⟩

/-! ### C3 — mkdir_with_opts on a free name -/

/-- C3: when the name does not resolve (not cached, not linked) and the
context is live, `MkdirWithOpts` creates the new empty directory with
the CID builder forced to the parent's current builder regardless of
the builder supplied in the options, adds its fresh node to the DAG
service, links the node under the name in the backing store, inserts
the overlay into the entries cache, and returns it. -/
theorem C3_mkdirWithOpts_builder_override (ctx : Ctx) (d : Directory) (n : String)
    (opts : MkdirOpts) (ds : DagStore)
    (hctx : ctx.cancelled = false)
    (hmiss : lookupEntry d.entriesCache n = none)
    (hfind : lookupEntry d.unixfsDir.links n = none) :
    d.MkdirWithOpts ctx n opts ds =
      (.created (mkdirResultDir d n opts), mkdirParentAfter d n opts,
       List.append (List.append ds [(mkdirResultDir d n opts).unixfsDir.getNodePure])
         [(mkdirResultDir d n opts).unixfsDir.getNodePure]) ∧
    (mkdirResultDir d n opts).unixfsDir.cidBuilder = d.unixfsDir.cidBuilder := by
  refine ⟨?_, rfl⟩
  have hchild : d.childUnsync ctx n = .error .notFound := by
    unfold Directory.childUnsync Directory.childFromDag UnixfsDir.find
    rw [hmiss]
    simp [hctx, hfind]
  unfold Directory.MkdirWithOpts
  rw [hchild]
  dsimp only
  unfold NewEmptyDirectory
  dsimp only [Directory.GetCidBuilder]
  rw [DagStore.add_of_not_cancelled hctx]
  dsimp only
  rw [getNode_eq]
  dsimp only [cacheSyncRec]
  rw [DagStore.add_of_not_cancelled hctx]
  dsimp only
  simp only [UnixfsDir.addChild, hctx, Bool.false_eq_true, if_false]
  rfl

/-- C3 (witness): creating "a" in `exEmptyDir` (builder 7) with options
carrying builder 42 yields a directory whose view has builder 7. -/
theorem C3_mkdirWithOpts_builder_override_witness :
    Directory.MkdirWithOpts ctxOk exEmptyDir "a" exOpts42 [] =
      (.created (mkdirResultDir exEmptyDir "a" exOpts42),
       mkdirParentAfter exEmptyDir "a" exOpts42,
       List.append
         (List.append [] [(mkdirResultDir exEmptyDir "a" exOpts42).unixfsDir.getNodePure])
         [(mkdirResultDir exEmptyDir "a" exOpts42).unixfsDir.getNodePure]) ∧
    (mkdirResultDir exEmptyDir "a" exOpts42).unixfsDir.cidBuilder = 7 :=
  C3_mkdirWithOpts_builder_override ctxOk exEmptyDir "a" exOpts42 [] rfl rfl rfl

end Mfs
